import Mathlib

/-!
Verification development for the link-resolution engine of `animine.py`.

The Python source is shallowly embedded: pure functions become Lean
functions over `String` / `List Char`; Python floats are idealized as `ℚ`;
`requests` calls are modelled as request descriptors; `json.loads` outcomes
are modelled by an explicit `Option JVal` argument (the parser itself is
library code, not part of this repository).  Regex scans (`re.findall`,
`re.search`) are embedded as explicit character-list scanners whose
semantics were derived by hand from the concrete patterns in the source
(all patterns are of the restricted shapes `LIT([^"]*A[^"]*B[^"]*)"`,
`LIT[^S]+`, or literal chains, for which leftmost non-overlapping greedy
matching has the direct recursive description used below).
-/

namespace Animine

/-- Characters stripped by Python `str.strip()` / matched by `\s`
(ASCII fragment; the tokens handled here are ASCII). -/
def pySpace (c : Char) : Bool :=
  c = ' ' || c = '\t' || c = '\n' || c = '\r' || c = Char.ofNat 11 || c = Char.ofNat 12

/-- `re.findall(r"..", s)`: leftmost non-overlapping pairs of characters,
where `.` does not match a newline.  (Source: `HexDecoder.decode`,
line 905.) -/
def findPairs : List Char → List (Char × Char)
  | [] => []
  | [_] => []
  | a :: b :: rest =>
    if a = '\n' then findPairs (b :: rest)
    else if b = '\n' then findPairs rest
    else (a, b) :: findPairs rest

/-- `HexDecoder.translation_table` (source lines 872-887), in source order. -/
def translation_table : List (String × String) :=
  [("79", "A"), ("7a", "B"), ("7b", "C"), ("7c", "D"), ("7d", "E"), ("7e", "F"),
   ("7f", "G"), ("70", "H"), ("71", "I"), ("72", "J"), ("73", "K"), ("74", "L"),
   ("75", "M"), ("76", "N"), ("77", "O"), ("68", "P"), ("69", "Q"), ("6a", "R"),
   ("6b", "S"), ("6c", "T"), ("6d", "U"), ("6e", "V"), ("6f", "W"), ("60", "X"),
   ("61", "Y"), ("62", "Z"), ("59", "a"), ("5a", "b"), ("5b", "c"), ("5c", "d"),
   ("5d", "e"), ("5e", "f"), ("5f", "g"), ("50", "h"), ("51", "i"), ("52", "j"),
   ("53", "k"), ("54", "l"), ("55", "m"), ("56", "n"), ("57", "o"), ("48", "p"),
   ("49", "q"), ("4a", "r"), ("4b", "s"), ("4c", "t"), ("4d", "u"), ("4e", "v"),
   ("4f", "w"), ("40", "x"), ("41", "y"), ("42", "z"), ("08", "0"), ("09", "1"),
   ("0a", "2"), ("0b", "3"), ("0c", "4"), ("0d", "5"), ("0e", "6"), ("0f", "7"),
   ("00", "8"), ("01", "9"), ("15", "-"), ("16", "."), ("67", "_"), ("46", "~"),
   ("02", ":"), ("17", "/"), ("07", "?"), ("1b", "#"), ("63", "["), ("65", "]"),
   ("78", "@"), ("19", "!"), ("1c", "$"), ("1e", "&"), ("10", "("), ("11", ")"),
   ("12", "*"), ("13", "+"), ("14", ","), ("03", ";"), ("05", "="), ("1d", "%")]

/-- Strip the fixed `--` token marker if present (`hex_blob[2:]`, line 897). -/
def stripDashes (s : List Char) : List Char :=
  if ['-', '-'].isPrefixOf s then s.drop 2 else s

/-- Look up the consecutive pairs in the translation table, silently
skipping unknown pairs (source lines 908-914), and join the hits. -/
def assembleChars (blob : List Char) : List Char :=
  (((findPairs blob).filterMap
    (fun p => List.lookup (String.mk [p.1, p.2]) translation_table)).map String.data).flatten

/-- `result.replace("/clock", "/clock.json")` (line 919): Python
`str.replace` rewrites every leftmost non-overlapping occurrence. -/
def replaceClock : List Char → List Char
  | '/' :: 'c' :: 'l' :: 'o' :: 'c' :: 'k' :: rest =>
      '/' :: 'c' :: 'l' :: 'o' :: 'c' :: 'k' :: '.' :: 'j' :: 's' :: 'o' :: 'n' ::
        replaceClock rest
  | c :: rest => c :: replaceClock rest
  | [] => []

/-- The pattern `/clock` of the rewrite, as a character list. -/
def clockPat : List Char := ['/', 'c', 'l', 'o', 'c', 'k']

/-- The replacement `/clock.json` of the rewrite, as a character list. -/
def clockJson : List Char := ['/', 'c', 'l', 'o', 'c', 'k', '.', 'j', 's', 'o', 'n']

/-- `HexDecoder.decode` (source lines 889-926).  An empty input raises
`ValueError`, which the handler turns into `""`; an odd length after
prefix stripping returns `""`; otherwise the pairs are translated and the
`/clock` rewrite is applied. -/
def decode (hex_blob : String) : String :=
  if hex_blob = "" then ""
  else
    let blob := stripDashes hex_blob.data
    if blob.length % 2 ≠ 0 then ""
    else String.mk (replaceClock (assembleChars blob))

/-- The full output alphabet actually present in the table: uppercase,
lowercase, digits, and 22 punctuation characters (including `%`). -/
def decoderAlphabet : List Char :=
  (List.range 26).map (fun i => Char.ofNat (65 + i)) ++
  (List.range 26).map (fun i => Char.ofNat (97 + i)) ++
  (List.range 10).map (fun i => Char.ofNat (48 + i)) ++
  [':', '/', '?', '#', '[', ']', '@', '!', '$', '&', '(', ')', '*', '+', ',', ';', '=',
   '-', '.', '_', '~', '%']

/-- A cons whose head is not `/` is left in place by the rewrite. -/
theorem replaceClock_cons_of_ne (c : Char) (t : List Char) (h : c ≠ '/') :
    replaceClock (c :: t) = c :: replaceClock t := by
  rw [replaceClock.eq_def]
  split
  · rename_i heq; rw [List.cons.injEq] at heq; exact absurd heq.1 h
  · rename_i heq; rw [List.cons.injEq] at heq; rw [heq.1, heq.2]
  · rename_i heq; exact absurd heq (by simp)

/-- An occurrence of `/clock` at the head is rewritten, and rewriting
continues on the remainder. -/
theorem replaceClock_clockPat_append (v : List Char) :
    replaceClock (clockPat ++ v) = clockJson ++ replaceClock v := rfl

/-- The rewrite commutes with a slash-free leading segment. -/
theorem replaceClock_append_of_noSlash (u w : List Char) (h : ∀ c ∈ u, c ≠ '/') :
    replaceClock (u ++ w) = u ++ replaceClock w := by
  induction u with
  | nil => rfl
  | cons c u ih =>
    rw [List.cons_append, replaceClock_cons_of_ne c (u ++ w) (h c (by simp)),
      ih (fun d hd => h d (by simp [hd])), List.cons_append]

/-- Claim C2 (counterexample): `decode "7968"` is not `"AX"` — the table
maps the pair `68` to `P`, not to `X`. -/
theorem C2_counterexample : decode "7968" ≠ "AX" := by decide

/-- Claim C2, corrected: `decode "7968"` returns `"AP"`: under the fixed
substitution table the pair `79` maps to `A` and the pair `68` maps to `P`
(it is `60` that maps to `X`). -/
theorem C2_decode_7968 :
    decode "7968" = "AP" ∧
    List.lookup "79" translation_table = some "A" ∧
    List.lookup "68" translation_table = some "P" ∧
    List.lookup "60" translation_table = some "X" := by decide

/-- Claim C8 (counterexample): the substitution table does not have 64
entries — it has 84 — and it contains the entry `1d → %`, whose output
character `%` is outside the punctuation set listed by the claim. -/
theorem C8_counterexample :
    translation_table.length ≠ 64 ∧
    translation_table.length = 84 ∧ ("1d", "%") ∈ translation_table := by decide

/-- Claim C8, corrected: the decoder's substitution table has exactly 84
two-character-code → one-character entries with pairwise distinct codes,
and its output characters are exactly the uppercase letters, lowercase
letters, digits 0–9, and the punctuation set
`: / ? # [ ] @ ! $ & ( ) * + , ; = - . _ ~ %` (one character each). -/
theorem C8_table_alphabet :
    translation_table.length = 84 ∧
    (translation_table.map Prod.fst).Nodup ∧
    (∀ kv ∈ translation_table, kv.1.length = 2 ∧ kv.2.length = 1) ∧
    (translation_table.map Prod.snd).Perm (decoderAlphabet.map (fun c => String.mk [c])) := by
  decide

/-- Claim C8 witness: the per-entry shape clause of the corrected
theorem applied to the concrete entry `79 → A`. -/
theorem C8_witness :
    ("79", "A") ∈ translation_table ∧
    ("79", "A").1.length = 2 ∧ ("79", "A").2.length = 1 :=
  ⟨by decide, C8_table_alphabet.2.2.1 ("79", "A") (by decide)⟩

/-- Claim C9 (counterexample): a `/clock` occurring in a non-trailing
position is not left unchanged: the token `175b54575b5359` assembles to
`/clocka`, and `decode` rewrites the embedded `/clock` anyway, returning
`/clock.jsona` instead of the claimed `/clocka`. -/
theorem C9_counterexample :
    decode "175b54575b5359" = "/clock.jsona" ∧
    decode "175b54575b5359" ≠ "/clocka" := by decide

/-- Claim C9, corrected: after assembling the decoded characters, `decode`
rewrites every occurrence of `/clock` to `/clock.json` — not only a
trailing one.  Whenever the assembled string splits as `u ++ "/clock" ++ v`
with no slash in `u` (so the occurrence need not be trailing: `v` is
arbitrary), the decoder output starts with `u ++ "/clock.json"` and
continues with the rewrite of `v`. -/
theorem C9_rewrite_all_occurrences (s : String) (u v : List Char)
    (hne : s ≠ "") (heven : (stripDashes s.data).length % 2 = 0)
    (hsplit : assembleChars (stripDashes s.data) = u ++ clockPat ++ v)
    (hu : ∀ c ∈ u, c ≠ '/') :
    decode s = String.mk (u ++ clockJson ++ replaceClock v) := by
  unfold decode
  rw [if_neg hne, if_neg (by simp [heven])]
  rw [hsplit, List.append_assoc, replaceClock_append_of_noSlash u (clockPat ++ v) hu,
    replaceClock_clockPat_append, List.append_assoc]

/-- Claim C9 witness: the corrected theorem applied to the concrete token
`59175b54575b5359`, which assembles to `a/clocka` — a non-trailing
occurrence — and decodes to `a/clock.jsona`. -/
theorem C9_witness :
    decode "59175b54575b5359" = String.mk (['a'] ++ clockJson ++ replaceClock ['a']) :=
  C9_rewrite_all_occurrences "59175b54575b5359" ['a'] ['a']
    (by decide) (by decide) (by decide) (by decide)

/-! ### Performance tracker: `JSONDataManager.update_provider_stats` -/

/-- One provider's persisted statistics record (source lines 744-749).
Python float arithmetic is idealized as exact rational arithmetic. -/
structure ProvStats where
  success_count : Nat
  failure_count : Nat
  avg_response_time : ℚ
deriving DecidableEq

/-- The record a provider is initialized with on its first `record` call
(source lines 742-749). -/
def initStats : ProvStats := ⟨0, 0, 0⟩

/-- `JSONDataManager.update_provider_stats` (source lines 735-775): bump
one counter, then recompute the running average — incrementally when
`total_requests > 1`, and as the raw latency otherwise. -/
def update_provider_stats (st : ProvStats) (success : Bool) (response_time : ℚ) : ProvStats :=
  let st :=
    if success then { st with success_count := st.success_count + 1 }
    else { st with failure_count := st.failure_count + 1 }
  let total_requests := st.success_count + st.failure_count
  if total_requests > 1 then
    { st with avg_response_time :=
        ((st.avg_response_time * ((total_requests : ℚ) - 1)) + response_time) / total_requests }
  else
    { st with avg_response_time := response_time }

/-- The state of one provider's record after a whole sequence of
`record(success, latency)` calls, starting from the initial record. -/
def run_stats (calls : List (Bool × ℚ)) : ProvStats :=
  calls.foldl (fun st c => update_provider_stats st c.1 c.2) initStats

/-- The two counters always sum to the number of recorded attempts. -/
theorem run_stats_counts (calls : List (Bool × ℚ)) :
    ∀ st : ProvStats,
      (calls.foldl (fun st c => update_provider_stats st c.1 c.2) st).success_count +
      (calls.foldl (fun st c => update_provider_stats st c.1 c.2) st).failure_count =
      st.success_count + st.failure_count + calls.length := by
  induction calls with
  | nil => intro st; simp
  | cons c calls ih =>
    intro st
    rw [List.foldl_cons, ih]
    unfold update_provider_stats
    cases c.1 <;> simp <;> split <;> simp <;> omega

/-- Claim C6 (counterexample): recording two failures with latencies 100
then 50 leaves `success_count = 0 ≤ 1`, so the claim's formula predicts
`newAvg = latency = 50`; the code instead applies the incremental formula
(its guard is on total attempts, not successes) and stores 75. -/
theorem C6_counterexample :
    (run_stats [(false, 100), (false, 50)]).success_count = 0 ∧
    (run_stats [(false, 100), (false, 50)]).avg_response_time = 75 ∧
    (75 : ℚ) ≠ 50 := by
  refine ⟨rfl, ?_, by norm_num⟩
  norm_num [run_stats, update_provider_stats, initStats]

/-- Claim C6, corrected: after each `record` call the stored running
average satisfies `newAvg = latency` when the provider's *total number of
attempts* `n` is at most 1 (i.e. on the very first call), and otherwise
`newAvg = ((oldAvg * (n - 1)) + latency) / n` — the guard is on total
attempts, not on `success_count`. -/
theorem C6_running_average (calls : List (Bool × ℚ)) (b : Bool) (rt : ℚ) :
    (run_stats (calls ++ [(b, rt)])).avg_response_time =
      if calls.length + 1 ≤ 1 then rt
      else ((run_stats calls).avg_response_time * (calls.length : ℚ) + rt) /
        ((calls.length : ℚ) + 1) := by
  have hcount := run_stats_counts calls initStats
  rw [show run_stats (calls ++ [(b, rt)]) =
      update_provider_stats (run_stats calls) b rt by
    unfold run_stats; rw [List.foldl_append]; rfl]
  set S := run_stats calls with hS
  have hn : S.success_count + S.failure_count = calls.length := by
    simpa [initStats, run_stats, ← hS] using hcount
  unfold update_provider_stats
  cases b <;> simp only [Bool.false_eq_true, if_true, if_false, ite_true, ite_false]
  · have htot : S.success_count + (S.failure_count + 1) = calls.length + 1 := by omega
    by_cases hgt : S.success_count + (S.failure_count + 1) > 1
    · rw [if_pos hgt, if_neg (by omega)]
      simp only [htot]
      push_cast
      ring_nf
    · rw [if_neg hgt, if_pos (by omega)]
  · have htot : S.success_count + 1 + S.failure_count = calls.length + 1 := by omega
    by_cases hgt : S.success_count + 1 + S.failure_count > 1
    · rw [if_pos hgt, if_neg (by omega)]
      simp only [htot]
      push_cast
      ring_nf
    · rw [if_neg hgt, if_pos (by omega)]

/-! ### Network requests issued by a resolution call -/

/-- Host constants (source lines 58-59). -/
def ALLANIME_BASE : String := "allanime.day"

/-- The metadata API host (source line 59). -/
def ALLANIME_API : String := "https://api." ++ ALLANIME_BASE

/-- A descriptor of one outgoing `requests.Session.get` call.  A `timeout`
of `none` means no `timeout=` argument was passed, in which case the
`requests` library waits indefinitely. -/
structure HttpRequest where
  url : String
  timeout : Option Nat
deriving DecidableEq

/-- The metadata query issued by `ProviderManager.get_all_links`
(source line 1140): `self.session.get(f"{ALLANIME_API}/api",
params=params, headers=headers)` — with no `timeout=` argument. -/
def metadata_request : HttpRequest :=
  { url := ALLANIME_API ++ "/api", timeout := none }

/-- The per-provider fetch issued by `ProviderManager.fetch_provider_data`
(source lines 1095-1098), carrying the configured timeout
(default fallback 15). -/
def provider_request (cfg_timeout : Nat) (decoded_url : String) : HttpRequest :=
  { url := "https://" ++ ALLANIME_BASE ++ decoded_url, timeout := some cfg_timeout }

/-- All network requests issued during one resolution call: the metadata
query, then one provider fetch per enqueued task. -/
def resolution_requests (cfg_timeout : Nat) (decoded_urls : List String) : List HttpRequest :=
  metadata_request :: decoded_urls.map (provider_request cfg_timeout)

/-- Claim C7 (code bug): each per-provider fetch does carry the bounded
configured timeout, but the metadata query is issued with no timeout at
all, so a resolution call can block indefinitely on the metadata endpoint
— contradicting the stated invariant. -/
theorem C7_metadata_request_unbounded :
    metadata_request.timeout = none ∧
    (∀ (t : Nat) (u : String), (provider_request t u).timeout = some t) ∧
    metadata_request ∈ resolution_requests 15 ["/apivtwo/clock.json"] :=
  ⟨rfl, fun t u => rfl, by simp [resolution_requests]⟩

/-! ### Character-list scanners embedding the `re` patterns of the source -/

/-- The double-quote character. -/
def quoteChar : Char := Char.ofNat 34

/-- `needle` occurs as a contiguous substring of the argument. -/
def containsSub (needle : List Char) : List Char → Bool
  | [] => needle.isEmpty
  | c :: t => needle.isPrefixOf (c :: t) || containsSub needle t

/-- `n1` occurs, and `n2` occurs disjointly after it — the matching
condition of the segment pattern `[^"]*n1[^"]*n2[^"]*`. -/
def ordered2 (n1 n2 : List Char) : List Char → Bool
  | [] => n1.isEmpty && n2.isEmpty
  | c :: t =>
    (n1.isPrefixOf (c :: t) && containsSub n2 ((c :: t).drop n1.length)) || ordered2 n1 n2 t

/-- Split at the first occurrence of `stop`: `some (before, after)`. -/
def breakAt (stop : Char) : List Char → Option (List Char × List Char)
  | [] => none
  | c :: t =>
    if c = stop then some ([], t)
    else (breakAt stop t).map (fun p => (c :: p.1, p.2))

/-- `re.findall` for patterns of the shape `LIT([^"]*…)"`: at each
position, the literal `lit` must match, the capture is the segment up to
the next double quote, and the match succeeds iff `cond` holds of the
segment (for these patterns greedy matching makes the capture exactly
that segment).  On success scanning resumes after the closing quote; on
failure it advances one character, as the regex engine does.  The fuel is
the remaining input length, which strictly decreases at each step. -/
def scanQuotedAux (lit : List Char) (cond : List Char → Bool) :
    Nat → List Char → List (List Char)
  | 0, _ => []
  | _, [] => []
  | fuel + 1, c :: t =>
    if lit.isPrefixOf (c :: t) then
      match breakAt quoteChar ((c :: t).drop lit.length) with
      | some (seg, rest) =>
        if cond seg then seg :: scanQuotedAux lit cond fuel rest
        else scanQuotedAux lit cond fuel t
      | none => scanQuotedAux lit cond fuel t
    else scanQuotedAux lit cond fuel t

/-- Entry point of `scanQuotedAux` with adequate fuel. -/
def scanQuoted (lit : List Char) (cond : List Char → Bool) (l : List Char) :
    List (List Char) :=
  scanQuotedAux lit cond l.length l

/-- `re.findall` for patterns of the shape `LIT[^S]+…`: the literal `lit`
followed by the maximal nonempty run of characters outside the stop set;
the match is `lit ++ run` and succeeds iff the run is nonempty and `cond`
holds of it.  On success scanning resumes after the match. -/
def scanLitRunAux (lit : List Char) (stop : Char → Bool) (cond : List Char → Bool) :
    Nat → List Char → List (List Char)
  | 0, _ => []
  | _, [] => []
  | fuel + 1, c :: t =>
    if lit.isPrefixOf (c :: t) then
      let rest := (c :: t).drop lit.length
      let run := rest.takeWhile (fun d => !stop d)
      if !run.isEmpty && cond run then
        (lit ++ run) :: scanLitRunAux lit stop cond fuel (rest.drop run.length)
      else scanLitRunAux lit stop cond fuel t
    else scanLitRunAux lit stop cond fuel t

/-- Entry point of `scanLitRunAux` with adequate fuel. -/
def scanLitRun (lit : List Char) (stop : Char → Bool) (cond : List Char → Bool)
    (l : List Char) : List (List Char) :=
  scanLitRunAux lit stop cond l.length l

/-- Python `str.replace(pat, rep)`: rewrite every leftmost
non-overlapping occurrence. -/
def replaceAllAux (pat rep : List Char) : Nat → List Char → List Char
  | 0, l => l
  | _, [] => []
  | fuel + 1, c :: t =>
    if !pat.isEmpty && pat.isPrefixOf (c :: t) then
      rep ++ replaceAllAux pat rep fuel ((c :: t).drop pat.length)
    else c :: replaceAllAux pat rep fuel t

/-- Entry point of `replaceAllAux` with adequate fuel. -/
def replaceAll (pat rep l : List Char) : List Char :=
  replaceAllAux pat rep l.length l

/-- Python `str.strip()`. -/
def pyStrip (l : List Char) : List Char :=
  ((l.dropWhile pySpace).reverse.dropWhile pySpace).reverse

/-! ### A minimal JSON value model

`json.loads` is Python library code, not part of this repository; its
outcome on a fetched body is therefore passed around explicitly as an
`Option JVal` (`none` models a raised `JSONDecodeError`). -/

/-- JSON values (numbers restricted to integers; the fields the source
reads are strings and booleans). -/
inductive JVal where
  | null
  | bool (b : Bool)
  | num (n : Int)
  | str (s : String)
  | arr (xs : List JVal)
  | obj (kvs : List (String × JVal))

/-- Python truthiness of a JSON-derived value
(`link_obj.get("mp4", False)` is used as a plain condition). -/
def truthy : JVal → Bool
  | .null => false
  | .bool b => b
  | .num n => n != 0
  | .str s => !s.isEmpty
  | .arr xs => !xs.isEmpty
  | .obj kvs => !kvs.isEmpty

/-- Dictionary field access on a parsed JSON object. -/
def jlookup (k : String) : JVal → Option JVal
  | .obj kvs => List.lookup k kvs
  | _ => none

/-- A fetched response body together with the outcome of `json.loads` on
it (`none`: parsing raises). -/
structure Body where
  raw : String
  parsed : Option JVal

/-! ### Format extractors (`ProviderManager.extract_*`, source lines 976-1087)

Each extractor returns a list of `(format, quality, url)` triples.  The
Python tuples are dynamically typed: provider B can propagate arbitrary
JSON values into the quality and url slots, so those slots are `JVal`
(the other extractors always produce strings, embedded via `JVal.str`). -/

/-- One raw extracted link: `(format, quality, url)`. -/
abbrev RawLink := String × JVal × JVal

/-- `ProviderManager.extract_wixmp_links` inner pattern: the anchored
parse of `https://repackager\.wixmp\.com/(video\.wixstatic\.com/video/
[^/]+)/,([^,/]+(?:,[^,/]+)*),/mp4/file\.mp4\.urlset/master\.m3u8` at one
position, returning the base-url capture and the comma-separated quality
items.  The star is parsed greedily; greedy commitment is equivalent to
backtracking here because the tail literal starts with `,/` while an item
can contain neither `,` nor `/`. -/
def wixTailLit : List Char := ",/mp4/file.mp4.urlset/master.m3u8".data

/-- The repackager host literal of both wixmp patterns. -/
def repackagerLit : List Char := "https://repackager.wixmp.com/".data

/-- The fixed leading literal of the wixmp base-url capture. -/
def wixVideoLit : List Char := "video.wixstatic.com/video/".data

/-- Greedy parse of the `(?:,[^,/]+)*` star followed by the tail literal. -/
def wixItemsAux : Nat → List (List Char) → List Char → Option (List (List Char))
  | 0, _, _ => none
  | fuel + 1, acc, l =>
    if wixTailLit.isPrefixOf l then some acc.reverse
    else
      match l with
      | ',' :: t =>
        let item := t.takeWhile (fun c => c ≠ ',' && c ≠ '/')
        if item.isEmpty then none
        else wixItemsAux fuel (item :: acc) (t.drop item.length)
      | _ => none

/-- Match of the full wixmp repackager pattern at one position. -/
def wixParseAt (l : List Char) : Option (List Char × List (List Char)) :=
  if repackagerLit.isPrefixOf l then
    let r1 := l.drop repackagerLit.length
    if wixVideoLit.isPrefixOf r1 then
      let r2 := r1.drop wixVideoLit.length
      let seg := r2.takeWhile (fun c => c ≠ '/')
      if seg.isEmpty then none
      else
        let r3 := r2.drop seg.length
        if ['/', ','].isPrefixOf r3 then
          let r4 := r3.drop 2
          let item1 := r4.takeWhile (fun c => c ≠ ',' && c ≠ '/')
          if item1.isEmpty then none
          else
            match wixItemsAux (r4.length + 1) [] (r4.drop item1.length) with
            | some items => some (wixVideoLit ++ seg, item1 :: items)
            | none => none
        else none
    else none
  else none

/-- `re.search` of the wixmp repackager pattern: leftmost match. -/
def wixSearchAux : Nat → List Char → Option (List Char × List (List Char))
  | 0, _ => none
  | _, [] => none
  | fuel + 1, c :: t =>
    match wixParseAt (c :: t) with
    | some r => some r
    | none => wixSearchAux fuel t

/-- `ProviderManager.extract_wixmp_links` (source lines 976-1000): parse
one repackager URL and synthesize one explicit mp4 URL per stripped,
nonempty quality label. -/
def extract_wixmp_links (repackager_url : String) : List RawLink :=
  match wixSearchAux repackager_url.data.length repackager_url.data with
  | none => []
  | some (base_url, items) =>
    ((items.map pyStrip).filter (fun q => !q.isEmpty)).map (fun q =>
      ("mp4", JVal.str (String.mk q),
        JVal.str ("https://" ++ String.mk base_url ++ "/" ++ String.mk q ++ "/mp4/file.mp4")))

/-- The body element list extracted from parsed SharePoint JSON (source
lines 1011-1018): elements of the `links` array that are objects with a
`link` field and a truthy `mp4` flag, each yielding
`(mp4, resolutionStr or "SharePoint", link)`. -/
def jvalLinks (j : JVal) : List RawLink :=
  match jlookup "links" j with
  | some (.arr elems) =>
    elems.filterMap fun e =>
      match e with
      | .obj kvs =>
        match List.lookup "link" kvs with
        | some url =>
          if truthy ((List.lookup "mp4" kvs).getD (.bool false)) then
            some ("mp4", (List.lookup "resolutionStr" kvs).getD (.str "SharePoint"), url)
          else none
        | none => none
      | _ => none
  | _ => []

/-- The segment condition of the SharePoint fallback patterns
`"link":"([^"]*sharepoint[^"]*download[^"]*)"` / `"src":"…"`. -/
def spCond (seg : List Char) : Bool :=
  ordered2 "sharepoint".data "download".data seg

/-- The regex fallback of `extract_sharepoint_links` (source lines
1020-1032): scan both patterns, keep matches containing
`sharepoint.com` and `download`, label them `SharePoint`. -/
def sharepointFallback (raw : String) : List RawLink :=
  (scanQuoted "\"link\":\"".data spCond raw.data ++
   scanQuoted "\"src\":\"".data spCond raw.data).filterMap fun seg =>
    if containsSub "sharepoint.com".data seg && containsSub "download".data seg then
      some ("mp4", JVal.str "SharePoint", JVal.str (String.mk seg))
    else none

/-- Whether the stripped body starts with `{` (source line 1008), which
gates the `json.loads` attempt. -/
def startsWithBrace (raw : String) : Bool :=
  match raw.data.dropWhile pySpace with
  | c :: _ => c = Char.ofNat 123
  | [] => false

/-- `ProviderManager.extract_sharepoint_links` (source lines 1002-1038).
`parsed` is the outcome of `json.loads raw`; it is only consulted when the
stripped body starts with `{`.  When `json.loads` raises (`parsed =
none`), the exception propagates to the handler at line 1036, which
returns `[]` — the regex fallback is *not* reached in that case. -/
def extract_sharepoint_links (raw : String) (parsed : Option JVal) : List RawLink :=
  if startsWithBrace raw then
    match parsed with
    | none => []
    | some j =>
      let links := jvalLinks j
      if links.isEmpty then sharepointFallback raw else links
  else sharepointFallback raw

/-- Stop set of the run patterns `[^"\s]+`. -/
def quoteSpaceStop (c : Char) : Bool := c = quoteChar || pySpace c

/-- Fix of the double-domain bug (source lines 1053-1054): a match
starting with `https://allanime.dayhttps://` has every occurrence of
`https://allanime.day` removed. -/
def ytDomainFix (m : List Char) : List Char :=
  if "https://allanime.dayhttps://".data.isPrefixOf m then
    replaceAll "https://allanime.day".data [] m
  else m

/-- `ProviderManager.extract_youtube_links` (source lines 1040-1063):
both patterns' matches, domain-fixed, labelled `YouTube`. -/
def extract_youtube_links (raw : String) : List RawLink :=
  (scanLitRun "https://tools.fast4speed.rsvp".data quoteSpaceStop (fun _ => true) raw.data ++
   scanQuoted "\"url\":\"".data (fun seg => containsSub "tools.fast4speed".data seg) raw.data).map
    fun m => ("mp4", JVal.str "YouTube", JVal.str (String.mk (ytDomainFix m)))

/-- `ProviderManager.extract_hianime_links` (source lines 1065-1087):
matches of `"url":"([^"]*\.m3u8[^"]*)"` then of
`(https://[^"\s]+\.m3u8[^"\s]*)`, each labelled `HLS Master` when it
contains `master.m3u8` and `HLS Stream` otherwise. -/
def extract_hianime_links (raw : String) : List RawLink :=
  (scanQuoted "\"url\":\"".data (fun seg => containsSub ".m3u8".data seg) raw.data ++
   scanLitRun "https://".data quoteSpaceStop
     (fun run => containsSub ".m3u8".data (run.drop 1)) raw.data).map
    fun m =>
      if containsSub "master.m3u8".data m then ("m3u8", JVal.str "HLS Master", JVal.str (String.mk m))
      else ("m3u8", JVal.str "HLS Stream", JVal.str (String.mk m))

/-! ### Provider registry (`ProviderManager.providers`, source lines 941-974) -/

/-- One provider descriptor. -/
structure ProviderInfo where
  name : String
  priority : Nat
  supports_mp4 : Bool
  supports_m3u8 : Bool
  quality_levels : List String
deriving DecidableEq

/-- The four fixed provider keys of the registry dictionary. -/
inductive ProviderKey where
  | wixmp
  | sharepoint
  | youtube
  | hianime
deriving DecidableEq

/-- The descriptor of each provider (source lines 941-974). -/
def providerInfo : ProviderKey → ProviderInfo
  | .wixmp => ⟨"Wixmp", 1, true, true, ["1080p", "720p", "480p", "360p"]⟩
  | .sharepoint => ⟨"SharePoint", 2, true, false, ["MP4"]⟩
  | .youtube => ⟨"YouTube", 3, true, false, ["YouTube"]⟩
  | .hianime => ⟨"HiAnime", 4, false, true, ["HLS"]⟩

/-- Registry dictionary insertion order (Python dicts preserve it). -/
def providersOrder : List ProviderKey :=
  [.wixmp, .sharepoint, .youtube, .hianime]

/-- One link of the final result: `(format, quality, url, providerName)`
(source line 1189 and parallels). -/
structure MediaLink where
  fmt : String
  quality : JVal
  url : JVal
  provider : String

/-! ### Ranking aggregator (`sort_key` in `get_all_links`, lines 1207-1214) -/

/-- `next((p['priority'] for p in self.providers.values() if p['name'] ==
provider), 999)`: the priority of the first registry entry with the given
display name, 999 when none matches. -/
def provider_priority (provider : String) : Nat :=
  match providersOrder.find? (fun pk => (providerInfo pk).name == provider) with
  | some pk => (providerInfo pk).priority
  | none => 999

/-- `{'mp4': 1, 'm3u8': 2}.get(fmt, 3)`. -/
def format_priority (f : String) : Nat :=
  if f = "mp4" then 1 else if f = "m3u8" then 2 else 3

/-- `{'1080p': 1, '720p': 2, '480p': 3, '360p': 4}.get(quality, 5)` — a
fixed global table; the dictionary keys are strings, so any non-string
quality value gets the default 5. -/
def quality_priority : JVal → Nat
  | .str s =>
    if s = "1080p" then 1 else if s = "720p" then 2
    else if s = "480p" then 3 else if s = "360p" then 4 else 5
  | _ => 5

/-- The composite sort key of `get_all_links` (source lines 1207-1212). -/
def sort_key (link : MediaLink) : Nat × Nat × Nat :=
  (provider_priority link.provider, format_priority link.fmt, quality_priority link.quality)

/-- Lexicographic order on the key triples, as Python compares tuples. -/
def lexLe (a b : Nat × Nat × Nat) : Prop :=
  a.1 < b.1 ∨ (a.1 = b.1 ∧ (a.2.1 < b.2.1 ∨ (a.2.1 = b.2.1 ∧ a.2.2 ≤ b.2.2)))

instance : DecidableRel lexLe := fun a b => by unfold lexLe; infer_instance

/-- `lexLe` compares the sort keys of two links. -/
def keyLe (x y : MediaLink) : Prop := lexLe (sort_key x) (sort_key y)

instance : DecidableRel keyLe := fun x y => by unfold keyLe; infer_instance

instance : IsTotal MediaLink keyLe :=
  ⟨fun x y => by unfold keyLe lexLe; omega⟩

instance : IsTrans MediaLink keyLe :=
  ⟨fun x y z => by unfold keyLe lexLe; omega⟩

/-- `all_links.sort(key=sort_key)` (source line 1214): Python `list.sort`
is a stable ascending sort by key; `insertionSort` over the total
preorder `keyLe` computes exactly that stable sort. -/
def rank (links : List MediaLink) : List MediaLink :=
  List.insertionSort keyLe links

/-! ### The concurrent resolver (`ProviderManager.get_all_links`) -/

/-- Stop set `[^"\'>\s]` of the outer wixmp URL pattern (line 1185). -/
def wixUrlStop (c : Char) : Bool :=
  c = quoteChar || c = Char.ofNat 39 || c = '>' || pySpace c

/-- The per-provider extraction dispatch of `get_all_links` (source lines
1184-1204): wixmp bodies are scanned for repackager URLs first
(line 1185), each processed by `extract_wixmp_links`. -/
def extractLinks : ProviderKey → Body → List RawLink
  | .wixmp, body =>
    (((scanLitRun repackagerLit wixUrlStop (fun _ => true) body.raw.data).map
      String.mk).map extract_wixmp_links).flatten
  | .sharepoint, body => extract_sharepoint_links body.raw body.parsed
  | .youtube, body => extract_youtube_links body.raw
  | .hianime, body => extract_hianime_links body.raw

/-- The links one completed fetch task contributes: nothing on a fetch
failure (`result['status'] == 'error'`), and the extracted links tagged
with the provider's display name on success (lines 1180-1204). -/
def taggedLinks (pk : ProviderKey) (outcome : Except Unit Body) : List MediaLink :=
  match outcome with
  | .error _ => []
  | .ok body => (extractLinks pk body).map fun r => ⟨r.1, r.2.1, r.2.2, (providerInfo pk).name⟩

/-- `ProviderManager.get_all_links` (source lines 1124-1221), with the
I/O boundary made explicit:
* `meta` is the outcome of the metadata GET at line 1140 plus
  `response.json()` — `.error` models a transport/HTTP/parse failure,
  which the top-level handler at lines 1219-1221 turns into `[]`;
* `completionOrder` is the list of providers whose tag regex matched the
  blob and whose token decoded to a nonempty path (lines 1165-1173), in
  the order their futures complete in the `as_completed` loop
  (line 1176);
* `fetched` gives each provider fetch's outcome (body, or error). -/
def get_all_links (meta : Except Unit (List (String × String)))
    (completionOrder : List ProviderKey)
    (fetched : ProviderKey → Except Unit Body) : List MediaLink :=
  match meta with
  | .error _ => []
  | .ok source_urls =>
    if source_urls.isEmpty then []
    else rank ((completionOrder.map fun pk => taggedLinks pk (fetched pk)).flatten)

/-! ### Order theory of the ranking key -/

/-- Links with equal sort keys are related by `keyLe`. -/
theorem keyLe_of_sort_key_eq {a b : MediaLink} (h : sort_key a = sort_key b) : keyLe a b := by
  unfold keyLe; rw [h]; unfold lexLe; omega

/-- `keyLe` in both directions forces equal sort keys. -/
theorem sort_key_eq_of_keyLe_both {a b : MediaLink} (h1 : keyLe a b) (h2 : keyLe b a) :
    sort_key a = sort_key b := by
  unfold keyLe lexLe at h1 h2
  rw [Prod.ext_iff, Prod.ext_iff]
  omega

/-- Inserting a link does not disturb the subsequence of any equal-key
class except for prepending the link to its own class. -/
theorem filter_orderedInsert_key (a : MediaLink) (l : List MediaLink) (k : Nat × Nat × Nat) :
    (List.orderedInsert keyLe a l).filter (fun x => decide (sort_key x = k)) =
      if sort_key a = k then a :: l.filter (fun x => decide (sort_key x = k))
      else l.filter (fun x => decide (sort_key x = k)) := by
  induction l with
  | nil =>
    by_cases hpa : sort_key a = k <;> simp [List.orderedInsert, hpa]
  | cons b t ih =>
    rw [List.orderedInsert]
    by_cases h : keyLe a b
    · rw [if_pos h]
      by_cases hpa : sort_key a = k <;> by_cases hpb : sort_key b = k <;>
        simp [List.filter_cons, hpa, hpb]
    · rw [if_neg h]
      by_cases hpa : sort_key a = k
      · have hpb : ¬ sort_key b = k := by
          intro hpb
          exact h (keyLe_of_sort_key_eq (hpa.trans hpb.symm))
        simp [List.filter_cons, hpa, hpb, ih]
      · by_cases hpb : sort_key b = k <;> simp [List.filter_cons, hpa, hpb, ih]

/-- Stability of the sort: every equal-key class keeps its input
subsequence. -/
theorem filter_insertionSort_key (l : List MediaLink) (k : Nat × Nat × Nat) :
    (List.insertionSort keyLe l).filter (fun x => decide (sort_key x = k)) =
      l.filter (fun x => decide (sort_key x = k)) := by
  induction l with
  | nil => rfl
  | cons a t ih =>
    rw [List.insertionSort, filter_orderedInsert_key]
    by_cases hpa : sort_key a = k <;> simp [List.filter_cons, hpa, ih]

/-- Two key-sorted lists with identical equal-key class subsequences are
equal: the output of a stable sort is unique. -/
theorem eq_of_sorted_of_filters (l₁ : List MediaLink) :
    ∀ l₂ : List MediaLink, List.Sorted keyLe l₁ → List.Sorted keyLe l₂ →
      (∀ k, l₁.filter (fun x => decide (sort_key x = k)) =
            l₂.filter (fun x => decide (sort_key x = k))) →
      l₁ = l₂ := by
  induction l₁ with
  | nil =>
    intro l₂ _ _ hf
    cases l₂ with
    | nil => rfl
    | cons b t₂ =>
      have := hf (sort_key b)
      simp [List.filter_cons] at this
  | cons a t ih =>
    intro l₂ h₁ h₂ hf
    cases l₂ with
    | nil =>
      have := hf (sort_key a)
      simp [List.filter_cons] at this
    | cons b t₂ =>
      have hkey : sort_key a = sort_key b := by
        by_contra hne
        have hne' : a ≠ b := fun h => hne (by rw [h])
        have ha2 : a ∈ (b :: t₂).filter (fun x => decide (sort_key x = sort_key a)) := by
          rw [← hf (sort_key a)]
          simp [List.filter_cons]
        have hb1 : b ∈ (a :: t).filter (fun x => decide (sort_key x = sort_key b)) := by
          rw [hf (sort_key b)]
          simp [List.filter_cons]
        rw [List.mem_filter] at ha2 hb1
        have hat2 : a ∈ t₂ := by
          rcases List.mem_cons.mp ha2.1 with h | h
          · exact absurd h hne'
          · exact h
        have hbt : b ∈ t := by
          rcases List.mem_cons.mp hb1.1 with h | h
          · exact absurd h (fun hh => hne' hh.symm)
          · exact h
        have hba : keyLe b a := (List.sorted_cons.mp h₂).1 a hat2
        have hab : keyLe a b := (List.sorted_cons.mp h₁).1 b hbt
        exact hne (sort_key_eq_of_keyLe_both hab hba)
      have hmain := hf (sort_key a)
      simp only [List.filter_cons, hkey, decide_True, if_true] at hmain
      rw [List.cons.injEq] at hmain
      obtain ⟨hab, htail⟩ := hmain
      subst hab
      have htails : ∀ k, t.filter (fun x => decide (sort_key x = k)) =
          t₂.filter (fun x => decide (sort_key x = k)) := by
        intro k
        by_cases hk : k = sort_key a
        · rw [hk]
          exact htail
        · have hfk := hf k
          rw [List.filter_cons, List.filter_cons,
            if_neg (by simp; exact fun hh => hk (hkey ▸ hh.symm)),
            if_neg (by simp; exact fun hh => hk hh.symm)] at hfk
          exact hfk
      rw [ih t₂ (List.sorted_cons.mp h₁).2 (List.sorted_cons.mp h₂).2 htails]

/-! ### The ranking claimed by the spec, for comparison (claim C3) -/

/-- Modelled from the spec's words (§4.6), for comparison with the
source's `sort_key`: a quality tier rank looked up in the link's own
provider's `qualityTierOrder`, labels not in that provider's order
sorting last.  (The spec guarantees every link references a registry
provider; an unregistered provider is ranked 999 as the source does.) -/
def spec_quality_rank (provider : String) (q : JVal) : Nat :=
  match providersOrder.find? (fun pk => (providerInfo pk).name == provider) with
  | some pk =>
    match q with
    | .str s =>
      match (providerInfo pk).quality_levels.findIdx? (fun lv => lv == s) with
      | some i => i
      | none => (providerInfo pk).quality_levels.length
    | _ => (providerInfo pk).quality_levels.length
  | none => 999

/-- The composite key claimed by the spec. -/
def spec_sort_key (link : MediaLink) : Nat × Nat × Nat :=
  (provider_priority link.provider, format_priority link.fmt,
    spec_quality_rank link.provider link.quality)

/-- Order of the spec-claimed key. -/
def spec_keyLe (x y : MediaLink) : Prop := lexLe (spec_sort_key x) (spec_sort_key y)

instance : DecidableRel spec_keyLe := fun x y => by unfold spec_keyLe; infer_instance

/-- The stable sort the spec describes. -/
def rank_spec_model (links : List MediaLink) : List MediaLink :=
  List.insertionSort spec_keyLe links

/-- Claim C3 (counterexample): two SharePoint mp4 links labelled
`SharePoint` and `720p`.  Per the claim, SharePoint's own
`qualityTierOrder = ['MP4']` ranks both labels last, so the stable sort
keeps the input order; the code's fixed global quality table instead
ranks `720p` as 2 and `SharePoint` as 5 and swaps them. -/
theorem C3_counterexample :
    rank [⟨"mp4", .str "SharePoint", .str "u1", "SharePoint"⟩,
          ⟨"mp4", .str "720p", .str "u2", "SharePoint"⟩] =
      [⟨"mp4", .str "720p", .str "u2", "SharePoint"⟩,
       ⟨"mp4", .str "SharePoint", .str "u1", "SharePoint"⟩] ∧
    rank_spec_model [⟨"mp4", .str "SharePoint", .str "u1", "SharePoint"⟩,
          ⟨"mp4", .str "720p", .str "u2", "SharePoint"⟩] =
      [⟨"mp4", .str "SharePoint", .str "u1", "SharePoint"⟩,
       ⟨"mp4", .str "720p", .str "u2", "SharePoint"⟩] ∧
    rank [⟨"mp4", .str "SharePoint", .str "u1", "SharePoint"⟩,
          ⟨"mp4", .str "720p", .str "u2", "SharePoint"⟩] ≠
      rank_spec_model [⟨"mp4", .str "SharePoint", .str "u1", "SharePoint"⟩,
          ⟨"mp4", .str "720p", .str "u2", "SharePoint"⟩] := by
  refine ⟨rfl, rfl, ?_⟩
  intro h
  rw [show rank [⟨"mp4", .str "SharePoint", .str "u1", "SharePoint"⟩,
          ⟨"mp4", .str "720p", .str "u2", "SharePoint"⟩] =
      [⟨"mp4", .str "720p", .str "u2", "SharePoint"⟩,
       ⟨"mp4", .str "SharePoint", .str "u1", "SharePoint"⟩] from rfl,
    show rank_spec_model [⟨"mp4", .str "SharePoint", .str "u1", "SharePoint"⟩,
          ⟨"mp4", .str "720p", .str "u2", "SharePoint"⟩] =
      [⟨"mp4", .str "SharePoint", .str "u1", "SharePoint"⟩,
       ⟨"mp4", .str "720p", .str "u2", "SharePoint"⟩] from rfl] at h
  rw [List.cons.injEq, MediaLink.mk.injEq] at h
  rcases h with ⟨⟨_, hq, _⟩, _⟩
  rw [JVal.str.injEq] at hq
  exact absurd hq (by decide)

/-- Claim C3, corrected: `rank` is the stable sort by the composite key
`(providerPriority asc, formatPriority asc, qualityPriority asc)` — with
mp4 before m3u8 before any other format — where the quality rank comes
from the fixed global table `{'1080p': 1, '720p': 2, '480p': 3,
'360p': 4}` with default 5, *ignoring* the per-provider
`qualityTierOrder`.  Stability is stated as preservation of each
equal-key class's subsequence; together with sortedness and being a
permutation this determines the output uniquely. -/
theorem C3_rank_stable_sort (links : List MediaLink) :
    (rank links).Perm links ∧
    List.Sorted keyLe (rank links) ∧
    (∀ k, (rank links).filter (fun x => decide (sort_key x = k)) =
          links.filter (fun x => decide (sort_key x = k))) :=
  ⟨List.perm_insertionSort keyLe links, List.sorted_insertionSort keyLe links,
   fun k => filter_insertionSort_key links k⟩

/-! ### Completion-order insensitivity (claim C4) -/

/-- Flattening the blocks of a list of keys is invariant under
permutation of the keys when at most one key has a nonempty block. -/
theorem flatten_map_eq_of_perm (g : ProviderKey → List MediaLink)
    (hg : ∀ x y, g x ≠ [] → g y ≠ [] → x = y) :
    ∀ {o₁ o₂ : List ProviderKey}, o₁.Perm o₂ →
      (o₁.map g).flatten = (o₂.map g).flatten := by
  intro o₁ o₂ h
  induction h with
  | nil => rfl
  | cons x _ ih => simp only [List.map_cons, List.flatten_cons, ih]
  | swap x y l =>
    simp only [List.map_cons, List.flatten_cons, ← List.append_assoc]
    by_cases hx : g x = []
    · rw [hx]; simp
    · by_cases hy : g y = []
      · rw [hy]; simp
      · rw [hg x y hx hy]
  | trans _ _ ih₁ ih₂ => rw [ih₁, ih₂]

/-- Looking a provider's own display name up in the registry returns its
own priority. -/
theorem provider_priority_name (pk : ProviderKey) :
    provider_priority (providerInfo pk).name = (providerInfo pk).priority := by
  cases pk <;> rfl

/-- The four registry priorities are pairwise distinct. -/
theorem providerInfo_priority_inj (pk₁ pk₂ : ProviderKey)
    (h : (providerInfo pk₁).priority = (providerInfo pk₂).priority) : pk₁ = pk₂ := by
  cases pk₁ <;> cases pk₂ <;> first | rfl | (exact absurd h (by decide))

/-- Every link contributed by a task carries that task's provider name. -/
theorem mem_taggedLinks_provider {pk : ProviderKey} {out : Except Unit Body} {x : MediaLink}
    (hx : x ∈ taggedLinks pk out) : x.provider = (providerInfo pk).name := by
  cases out with
  | error e => simp [taggedLinks] at hx
  | ok body =>
    simp only [taggedLinks, List.mem_map] at hx
    obtain ⟨r, _, rfl⟩ := hx
    rfl

/-- Claim C4: for two runs of the resolver in which each matched
provider's fetch yields the same outcome (body and hence extracted links)
but the fetch tasks complete in different orders — any permutation of the
completion order — the returned sequence of
`(format, quality, url, provider)` links is identical: completion order
never influences the final result order. -/
theorem C4_order_insensitive (meta : Except Unit (List (String × String)))
    (o₁ o₂ : List ProviderKey) (fetched : ProviderKey → Except Unit Body)
    (h : o₁.Perm o₂) :
    get_all_links meta o₁ fetched = get_all_links meta o₂ fetched := by
  cases meta with
  | error e => rfl
  | ok srcs =>
    unfold get_all_links
    dsimp only
    by_cases hs : srcs.isEmpty
    · rw [if_pos hs, if_pos hs]
    · rw [if_neg hs, if_neg hs]
      unfold rank
      apply eq_of_sorted_of_filters
      · exact List.sorted_insertionSort keyLe _
      · exact List.sorted_insertionSort keyLe _
      · intro k
        rw [filter_insertionSort_key, filter_insertionSort_key,
          List.filter_flatten, List.filter_flatten, List.map_map, List.map_map]
        refine flatten_map_eq_of_perm _ ?_ h
        intro x y hx hy
        have key_of_ne : ∀ pk : ProviderKey,
            (Function.comp (List.filter fun z => decide (sort_key z = k))
              (fun q => taggedLinks q (fetched q))) pk ≠ [] →
            k.1 = (providerInfo pk).priority := by
          intro pk hne
          obtain ⟨z, hz⟩ := List.exists_mem_of_ne_nil _ hne
          rw [Function.comp_apply, List.mem_filter] at hz
          have h1 := mem_taggedLinks_provider hz.1
          have h2 : sort_key z = k := by simpa using hz.2
          rw [← h2]
          show (sort_key z).1 = _
          simp [sort_key, h1, provider_priority_name]
        exact providerInfo_priority_inj x y ((key_of_ne x hx).symm.trans (key_of_ne y hy))

/-- Claim C4 witness: the theorem applied to a concrete two-provider run
whose completion orders are reversed. -/
theorem C4_witness :
    ([ProviderKey.wixmp, ProviderKey.hianime]).Perm
      [ProviderKey.hianime, ProviderKey.wixmp] ∧
    get_all_links (.ok [("s", "u")]) [ProviderKey.wixmp, ProviderKey.hianime]
        (fun _ => .ok ⟨"\"url\":\"https://h/a.m3u8\"", none⟩) =
      get_all_links (.ok [("s", "u")]) [ProviderKey.hianime, ProviderKey.wixmp]
        (fun _ => .ok ⟨"\"url\":\"https://h/a.m3u8\"", none⟩) :=
  ⟨by decide, C4_order_insensitive _ _ _ _ (by decide)⟩

/-! ### Duplicate emission by the HiAnime extractor (claim C10) -/

/-- Claim C10: for the body `"url":"https://host/stream.m3u8"` — an
`.m3u8` URL inside a quoted JSON `url` field — both HiAnime scan patterns
match the same URL and the match lists are concatenated without
deduplication, so the extractor emits the identical
`(m3u8, HLS Stream, url)` link twice, and the resolver consequently
returns a result containing duplicate MediaLinks. -/
theorem C10_hianime_duplicate :
    extract_hianime_links "\"url\":\"https://host/stream.m3u8\"" =
      [("m3u8", JVal.str "HLS Stream", JVal.str "https://host/stream.m3u8"),
       ("m3u8", JVal.str "HLS Stream", JVal.str "https://host/stream.m3u8")] ∧
    get_all_links (.ok [("Luf-Mp4", "token")]) [.hianime]
        (fun _ => .ok ⟨"\"url\":\"https://host/stream.m3u8\"", none⟩) =
      [⟨"m3u8", JVal.str "HLS Stream", JVal.str "https://host/stream.m3u8", "HiAnime"⟩,
       ⟨"m3u8", JVal.str "HLS Stream", JVal.str "https://host/stream.m3u8", "HiAnime"⟩] :=
  ⟨rfl, rfl⟩

/-! ### The SharePoint fallback gap (claim C5) -/

/-- Claim C5 (code bug): on the body `{"link":"https://x.sharepoint.com/
download"` — which starts with `{` but is invalid JSON, so `json.loads`
raises — the extractor returns `[]`: the exception jumps past the
fallback, even though the fallback scanner (reached per the claim and per
the source's own comment at line 1020) finds exactly the sharepoint
download link. -/
theorem C5_parse_failure_skips_fallback :
    extract_sharepoint_links "\x7b\"link\":\"https://x.sharepoint.com/download\"" none = [] ∧
    sharepointFallback "\x7b\"link\":\"https://x.sharepoint.com/download\"" =
      [("mp4", JVal.str "SharePoint", JVal.str "https://x.sharepoint.com/download")] :=
  ⟨rfl, rfl⟩

/-! ### Failure propagation of the resolver (claim C1) -/

/-- Claim C1 (counterexample): a metadata-query failure is not surfaced —
the top-level handler returns the empty list, the same value a successful
run with no links returns.  With identical provider-side outcomes, the
failed-metadata run returns `[]` while the successful-metadata run
returns links, so `[]` does double duty as the representation of a
metadata failure. -/
theorem C1_counterexample :
    get_all_links (.error ()) [.hianime]
        (fun _ => .ok ⟨"\"url\":\"x.m3u8\"", none⟩) = [] ∧
    get_all_links (.ok [("Luf-Mp4", "tok")]) [.hianime]
        (fun _ => .ok ⟨"\"url\":\"x.m3u8\"", none⟩) ≠ [] := by
  refine ⟨rfl, ?_⟩
  intro h
  rw [show get_all_links (.ok [("Luf-Mp4", "tok")]) [ProviderKey.hianime]
      (fun _ => .ok ⟨"\"url\":\"x.m3u8\"", none⟩) =
      [⟨"m3u8", JVal.str "HLS Stream", JVal.str "x.m3u8", "HiAnime"⟩] from rfl] at h
  exact List.cons_ne_nil _ _ h

/-- Claim C1, corrected: the resolver never signals a metadata failure to
the caller — `get_all_links` catches it and returns the empty list,
indistinguishable from the legitimate 'no links' outcome — while each
per-provider fetch failure is indeed absorbed locally: a provider whose
fetch errored contributes nothing, exactly as if its task were dropped
from the batch. -/
theorem C1_failures_absorbed :
    (∀ (o : List ProviderKey) (f : ProviderKey → Except Unit Body),
        get_all_links (.error ()) o f = []) ∧
    (∀ (srcs : List (String × String)) (o : List ProviderKey)
        (f : ProviderKey → Except Unit Body) (pk : ProviderKey),
        f pk = .error () →
        get_all_links (.ok srcs) o f =
          get_all_links (.ok srcs) (o.filter (fun q => q != pk)) f) := by
  refine ⟨fun o f => rfl, fun srcs o f pk hf => ?_⟩
  unfold get_all_links
  dsimp only
  by_cases hs : srcs.isEmpty
  · rw [if_pos hs, if_pos hs]
  · rw [if_neg hs, if_neg hs]
    have : ∀ o' : List ProviderKey,
        ((o'.filter (fun q => q != pk)).map fun q => taggedLinks q (f q)).flatten =
        (o'.map fun q => taggedLinks q (f q)).flatten := by
      intro o'
      induction o' with
      | nil => rfl
      | cons q t ih =>
        by_cases hq : q = pk
        · subst hq
          rw [List.filter_cons, if_neg (by simp)]
          simp only [List.map_cons, List.flatten_cons, ih, hf]
          rfl
        · rw [List.filter_cons, if_pos (by simp [hq])]
          simp only [List.map_cons, List.flatten_cons, ih]
    rw [this o]

/-- Claim C1 witness: the corrected theorem's absorption part applied to
a concrete batch in which the YouTube fetch fails. -/
theorem C1_witness :
    get_all_links (.ok [("a", "b")]) [ProviderKey.youtube, ProviderKey.hianime]
        (fun _ => .error ()) =
      get_all_links (.ok [("a", "b")])
        (([ProviderKey.youtube, ProviderKey.hianime]).filter (fun q => q != ProviderKey.youtube))
        (fun _ => .error ()) :=
  C1_failures_absorbed.2 [("a", "b")] [ProviderKey.youtube, ProviderKey.hianime]
    (fun _ => .error ()) ProviderKey.youtube rfl

end Animine
